import Mathlib

/-!
Shallow embedding of the traffic-data generator (src/Python/traffic_generator.py)
and of the service-bus batch sender (src/Python/servicebus_send.py).

Randomness is modeled by explicit oracles: a call random.choice(xs) whose oracle
value is r returns the element of xs at index r mod xs.length, and each
random.randint draw is passed in as a parameter constrained to its documented
range.  Pixel-level library operations (cv2, numpy, PIL) are external
collaborators and appear as opaque function parameters; image descriptors track
the data the program stores about each image (path, type code, saved
dimensions).
-/

/-- Letter alphabet used by random_plate_number for the letter placeholder. -/
def plateLetters : List Char := "ABCDEFGHIJKLMNOPQRSTUVWXYZ".toList

/-- Digit alphabet used by random_plate_number for the digit placeholder. -/
def plateDigits : List Char := "0123456789".toList

/-- Model of random.choice over a nonempty list: the oracle value r selects the
element at index r mod length. -/
def randomChoice (l : List α) (r : Nat) (h : l ≠ []) : α :=
  l.get ⟨r % l.length, Nat.mod_lt r (List.length_pos.mpr h)⟩

/-- random_plate_number (traffic_generator.py lines 44-51): scans the format
string; the letter placeholder appends a random draw from A-Z, the digit
placeholder appends a random draw from 0-9, and any other character is skipped
(the if/elif chain has no else branch).  The oracle rng supplies one draw per
placeholder, indexed by the running counter k. -/
def random_plate_number : List Char → (Nat → Nat) → Nat → List Char
  | [], _, _ => []
  | c :: rest, rng, k =>
    if c = 'A' then
      randomChoice plateLetters (rng k) (by decide) :: random_plate_number rest rng (k + 1)
    else if c = '#' then
      randomChoice plateDigits (rng k) (by decide) :: random_plate_number rest rng (k + 1)
    else
      random_plate_number rest rng k

/-- The property the specification asserts of samplePlateNumber: the plate has
the same length as the format and matches it position by position, literals
being copied through. -/
def plateMatchesFormat (fmt plate : List Char) : Prop :=
  plate.length = fmt.length ∧
    ∀ i : Nat, ∀ hf : i < fmt.length, ∀ hp : i < plate.length,
      (fmt.get ⟨i, hf⟩ = 'A' → plate.get ⟨i, hp⟩ ∈ plateLetters) ∧
      (fmt.get ⟨i, hf⟩ = '#' → plate.get ⟨i, hp⟩ ∈ plateDigits) ∧
      (fmt.get ⟨i, hf⟩ ≠ 'A' → fmt.get ⟨i, hf⟩ ≠ '#' →
        plate.get ⟨i, hp⟩ = fmt.get ⟨i, hf⟩)

/-- Characters of a format that produce an output character. -/
def isPlaceholder (c : Char) : Bool := c == 'A' || c == '#'

/-- The placeholder characters of a format, in order. -/
def placeholders (fmt : List Char) : List Char := fmt.filter isPlaceholder

/-- Relation between a placeholder character and the generated character. -/
def placeholderClass (p c : Char) : Prop :=
  (p = 'A' → c ∈ plateLetters) ∧ (p = '#' → c ∈ plateDigits)

theorem random_plate_number_forall2 (fmt : List Char) (rng : Nat → Nat) :
    ∀ k : Nat,
      List.Forall₂ placeholderClass (placeholders fmt) (random_plate_number fmt rng k) := by
  induction fmt with
  | nil => intro k; simp [placeholders, random_plate_number]
  | cons c rest ih =>
    intro k
    by_cases hA : c = 'A'
    · subst hA
      have hp : placeholders ('A' :: rest) = 'A' :: placeholders rest := by
        simp [placeholders, isPlaceholder]
      rw [hp]
      simp only [random_plate_number, if_pos rfl]
      refine List.Forall₂.cons ?_ (ih (k + 1))
      refine ⟨fun _ => ?_, fun hcontra => absurd hcontra (by decide)⟩
      exact List.get_mem _ _ _
    · by_cases hH : c = '#'
      · subst hH
        have hp : placeholders ('#' :: rest) = '#' :: placeholders rest := by
          simp [placeholders, isPlaceholder]
        rw [hp]
        simp only [random_plate_number, if_neg (by decide : ¬ ('#' = 'A')), if_pos rfl]
        refine List.Forall₂.cons ?_ (ih (k + 1))
        refine ⟨fun hcontra => absurd hcontra (by decide), fun _ => ?_⟩
        exact List.get_mem _ _ _
      · have hp : placeholders (c :: rest) = placeholders rest := by
          simp [placeholders, isPlaceholder, hA, hH]
        rw [hp]
        simp only [random_plate_number, if_neg hA, if_neg hH]
        exact ih k

/-- C1 counterexample: at the format A-hyphen-hash, the generated plate has
length 2 while the format has length 3, because the literal hyphen is skipped
rather than copied; so the claimed length and literal-copy property fails. -/
theorem random_plate_number_literal_counterexample :
    (random_plate_number "A-#".toList (fun _ => 0) 0).length = 2 ∧
      ("A-#".toList).length = 3 ∧
      random_plate_number "A-#".toList (fun _ => 0) 0 = ['A', '0'] := by
  refine ⟨?_, ?_, ?_⟩ <;> decide

/-- C1 amended: each placeholder of the format produces, in order, one output
character of the matching class (letter placeholder gives a character of A-Z,
digit placeholder gives a character of 0-9), non-placeholder characters are
dropped, and the plate length equals the number of placeholders. -/
theorem random_plate_number_placeholder_spec (fmt : List Char) (rng : Nat → Nat) (k : Nat) :
    List.Forall₂ placeholderClass (placeholders fmt) (random_plate_number fmt rng k) ∧
      (random_plate_number fmt rng k).length = (placeholders fmt).length := by
  refine ⟨random_plate_number_forall2 fmt rng k, ?_⟩
  exact (random_plate_number_forall2 fmt rng k).length_eq.symm

/-- Descriptor of one saved vehicle image: the path and type code stored in the
record, together with the pixel dimensions of the file written at that path. -/
structure VehicleImage where
  image_file : String
  image_type : String
  width : Nat
  height : Nat
deriving DecidableEq

/-- Output directory for vehicle images (traffic_generator.py line 13). -/
def OUTPUT_IMAGES_DIR : String := "\\\\WIN02\\TollHost\\vehicle_images"

/-- Path joining on the Windows-style configured directories. -/
def pathJoin (dir file : String) : String := dir ++ "\\" ++ file

/-- One Overview descriptor (lines 160-164): filename indexed by the inner-loop
counter, type code 1, saved as a full copy of the composed template whose
dimensions are those of the template asset. -/
def overviewImage (tid : String) (tw th : Nat) (i : Nat) : VehicleImage :=
  { image_file := pathJoin OUTPUT_IMAGES_DIR (tid ++ "_vehicle_" ++ toString i ++ ".jpg"),
    image_type := "1", width := tw, height := th }

/-- The RegionOfInterest descriptor (lines 167-173): the plate area cropped and
resized to 400 by 100, type code 2. -/
def roiImage (tid : String) : VehicleImage :=
  { image_file := pathJoin OUTPUT_IMAGES_DIR (tid ++ "_plateroi.jpg"),
    image_type := "2", width := 400, height := 100 }

/-- generate_vehicle_images (lines 119-175): the outer loop runs for i in
range(1, outerDraw) where outerDraw = random.randint(2, 4); inside it, the
inner loop for i in range(1, maxImgs) (maxImgs = max_vehicle_images, shadowing
the outer i) saves and appends one Overview descriptor per inner index; after
the outer loop a single RegionOfInterest descriptor is appended.  tw and th
are the dimensions of the external template asset, preserved by the overlay
and effect steps. -/
def generate_vehicle_images (tid : String) (tw th : Nat) (outerDraw maxImgs : Nat) :
    List VehicleImage :=
  let innerBlock := (List.range' 1 (maxImgs - 1)).map (overviewImage tid tw th)
  let overviews := (List.replicate (outerDraw - 1) innerBlock).flatten
  overviews ++ [roiImage tid]

theorem length_flatten_replicate (n : Nat) (b : List α) :
    (List.replicate n b).flatten.length = n * b.length := by
  induction n with
  | zero => simp
  | succ k ih => simp [List.replicate_succ, ih, Nat.succ_mul, Nat.add_comm]

theorem count_flatten_replicate [BEq α] (n : Nat) (b : List α) (a : α) :
    ((List.replicate n b).flatten).count a = n * b.count a := by
  induction n with
  | zero => simp
  | succ k ih => simp [List.replicate_succ, List.count_append, ih, Nat.succ_mul, Nat.add_comm]

theorem mem_overviews_type (tid : String) (tw th r m : Nat) (im : VehicleImage)
    (h : im ∈ (List.replicate (r - 1)
      ((List.range' 1 (m - 1)).map (overviewImage tid tw th))).flatten) :
    im.image_type = "1" := by
  rw [List.mem_flatten] at h
  obtain ⟨b, hb, him⟩ := h
  rw [List.eq_of_mem_replicate hb] at him
  rw [List.mem_map] at him
  obtain ⟨i, _, rfl⟩ := him
  rfl

theorem gvi_filter_overview (tid : String) (tw th r m : Nat) :
    (generate_vehicle_images tid tw th r m).filter (fun im => im.image_type = "1") =
      (List.replicate (r - 1)
        ((List.range' 1 (m - 1)).map (overviewImage tid tw th))).flatten := by
  show (_ ++ [roiImage tid]).filter _ = _
  rw [List.filter_append]
  have h2 : ([roiImage tid]).filter (fun im => decide (im.image_type = "1")) = [] := by
    simp [roiImage]
  rw [h2, List.append_nil]
  rw [List.filter_eq_self]
  intro a ha
  simpa using mem_overviews_type tid tw th r m a ha

theorem gvi_overview_count (tid : String) (tw th r m : Nat) :
    ((generate_vehicle_images tid tw th r m).filter
        (fun im => im.image_type = "1")).length = (r - 1) * (m - 1) := by
  rw [gvi_filter_overview, length_flatten_replicate]
  simp

theorem gvi_filter_roi (tid : String) (tw th r m : Nat) :
    (generate_vehicle_images tid tw th r m).filter (fun im => im.image_type = "2") =
      [roiImage tid] := by
  show (_ ++ [roiImage tid]).filter _ = _
  rw [List.filter_append]
  have h2 : ([roiImage tid]).filter (fun im => decide (im.image_type = "2")) =
      [roiImage tid] := by simp [roiImage]
  rw [h2]
  have h1 : (List.replicate (r - 1)
      ((List.range' 1 (m - 1)).map (overviewImage tid tw th))).flatten.filter
        (fun im => decide (im.image_type = "2")) = [] := by
    rw [List.filter_eq_nil_iff]
    intro a ha
    have := mem_overviews_type tid tw th r m a ha
    simp [this]
  rw [h1, List.nil_append]

/-- C2 counterexample: with outer draw 2 (a legal randint(2,4) value) and a
requested per-record image count of 1 (a legal randint(1,3) value), the
returned image list contains zero Overview entries, contradicting the claimed
at-least-one-Overview invariant; the RegionOfInterest entry is still unique. -/
theorem generate_vehicle_images_no_overview_counterexample :
    ((generate_vehicle_images "t" 640 480 2 1).filter
        (fun im => im.image_type = "1")).length = 0 ∧
      ((generate_vehicle_images "t" 640 480 2 1).filter
        (fun im => im.image_type = "2")).length = 1 := by
  refine ⟨?_, ?_⟩ <;> decide

/-- C2 amended: every generated image list contains exactly one
RegionOfInterest entry, whose stored dimensions are exactly 400 by 100, and it
contains at least one Overview entry exactly when the requested
max_vehicle_images is at least 2 (zero Overview entries when it is 1). -/
theorem generate_vehicle_images_roi_invariant (tid : String) (tw th r m : Nat)
    (hr : 2 ≤ r) :
    (generate_vehicle_images tid tw th r m).filter (fun im => im.image_type = "2") =
        [roiImage tid] ∧
      (roiImage tid).width = 400 ∧ (roiImage tid).height = 100 ∧
      (1 ≤ ((generate_vehicle_images tid tw th r m).filter
          (fun im => im.image_type = "1")).length ↔ 2 ≤ m) := by
  refine ⟨gvi_filter_roi tid tw th r m, rfl, rfl, ?_⟩
  rw [gvi_overview_count]
  constructor
  · intro h
    by_contra hm
    have hz : m - 1 = 0 := by omega
    rw [hz, Nat.mul_zero] at h
    omega
  · intro hm
    have h1 : 1 ≤ r - 1 := by omega
    have h2 : 1 ≤ m - 1 := by omega
    calc 1 = 1 * 1 := rfl
    _ ≤ (r - 1) * (m - 1) := Nat.mul_le_mul h1 h2

theorem generate_vehicle_images_roi_invariant_witness :
    2 ≤ 2 ∧
      ((generate_vehicle_images "t" 640 480 2 2).filter
          (fun im => im.image_type = "2") = [roiImage "t"] ∧
        (roiImage "t").width = 400 ∧ (roiImage "t").height = 100 ∧
        (1 ≤ ((generate_vehicle_images "t" 640 480 2 2).filter
            (fun im => im.image_type = "1")).length ↔ 2 ≤ 2)) :=
  ⟨by decide, generate_vehicle_images_roi_invariant "t" 640 480 2 2 (by decide)⟩

/-- C3 counterexample: with outer draw 2 and max_vehicle_images 2, the list
contains exactly one Overview entry, not the two entries the claim requires
for overviewCount equal to 2. -/
theorem generate_vehicle_images_count_counterexample :
    ((generate_vehicle_images "t" 640 480 2 2).filter
        (fun im => im.image_type = "1")).length = 1 := by
  decide

/-- C3 amended: the returned list is the concatenation of
(outerDraw - 1) repetitions of the inner Overview block, of total length
(outerDraw - 1) times (max_vehicle_images - 1), followed by exactly one
RegionOfInterest entry as the last element. -/
theorem generate_vehicle_images_order_spec (tid : String) (tw th r m : Nat) :
    generate_vehicle_images tid tw th r m =
        (List.replicate (r - 1)
            ((List.range' 1 (m - 1)).map (overviewImage tid tw th))).flatten
          ++ [roiImage tid] ∧
      ((generate_vehicle_images tid tw th r m).filter
          (fun im => im.image_type = "1")).length = (r - 1) * (m - 1) ∧
      (generate_vehicle_images tid tw th r m).getLast? = some (roiImage tid) ∧
      (roiImage tid).image_type = "2" := by
  refine ⟨rfl, gvi_overview_count tid tw th r m, ?_, rfl⟩
  show (_ ++ [roiImage tid]).getLast? = _
  simp

/-- C10: when the outer loop runs at least twice (outer draw at least 3) and
max_vehicle_images is at least 2, the Overview filename built from inner index
1 occurs at least twice among the stored image paths, so distinct list entries
reference the same file. -/
theorem generate_vehicle_images_duplicate_paths (tid : String) (tw th r m : Nat)
    (hr : 3 ≤ r) (hm : 2 ≤ m) :
    2 ≤ ((generate_vehicle_images tid tw th r m).map
        (fun im => im.image_file)).count ((overviewImage tid tw th 1).image_file) := by
  have hsplit : (generate_vehicle_images tid tw th r m).map (fun im => im.image_file) =
      ((List.replicate (r - 1)
          ((List.range' 1 (m - 1)).map (overviewImage tid tw th))).flatten).map
        (fun im => im.image_file) ++ [(roiImage tid).image_file] := by
    show ((_ ++ [roiImage tid]).map _) = _
    rw [List.map_append]
    rfl
  rw [hsplit, List.count_append]
  have hmapped : ((List.replicate (r - 1)
        ((List.range' 1 (m - 1)).map (overviewImage tid tw th))).flatten).map
          (fun im => im.image_file) =
      (List.replicate (r - 1)
        (((List.range' 1 (m - 1)).map (overviewImage tid tw th)).map
          (fun im => im.image_file))).flatten := by
    rw [List.map_flatten, List.map_replicate]
  rw [hmapped, count_flatten_replicate]
  have hmem : (overviewImage tid tw th 1).image_file ∈
      ((List.range' 1 (m - 1)).map (overviewImage tid tw th)).map
        (fun im => im.image_file) := by
    obtain ⟨k, hk⟩ : ∃ k, m - 1 = k + 1 := ⟨m - 2, by omega⟩
    rw [hk, List.range'_succ]
    exact List.mem_cons_self _ _
  have hc : 1 ≤ (((List.range' 1 (m - 1)).map (overviewImage tid tw th)).map
      (fun im => im.image_file)).count ((overviewImage tid tw th 1).image_file) :=
    List.count_pos_iff.mpr hmem
  have h2 : 2 ≤ r - 1 := by omega
  calc 2 = 2 * 1 := rfl
  _ ≤ (r - 1) * (((List.range' 1 (m - 1)).map (overviewImage tid tw th)).map
      (fun im => im.image_file)).count ((overviewImage tid tw th 1).image_file) :=
    Nat.mul_le_mul h2 hc
  _ ≤ _ := Nat.le_add_right _ _

theorem generate_vehicle_images_duplicate_paths_witness :
    3 ≤ 3 ∧ 2 ≤ 2 ∧
      2 ≤ ((generate_vehicle_images "t" 640 480 3 2).map
        (fun im => im.image_file)).count ((overviewImage "t" 640 480 1).image_file) :=
  ⟨by decide, by decide,
    generate_vehicle_images_duplicate_paths "t" 640 480 3 2 (by decide) (by decide)⟩

/-- One offer of a record to the accumulating batch (traffic_generator.py
lines 233-246): the record is appended; when the batch length reaches
batch_size the batch is flushed (appended to the list of written batches) and
the accumulator is reset to empty. -/
def offerStep (batch_size : Nat) (st : List α × List (List α)) (r : α) :
    List α × List (List α) :=
  let batch := st.1 ++ [r]
  if batch.length = batch_size then ([], st.2 ++ [batch]) else (batch, st.2)

/-- The generation loop's successive offers, from a given dispatcher state. -/
def runOffers (batch_size : Nat) : List α → (List α × List (List α)) →
    (List α × List (List α))
  | [], st => st
  | r :: rest, st => runOffers batch_size rest (offerStep batch_size st r)

/-- The flushed batches of generate_traffic_data (lines 186-256): every record
is offered in turn starting from an empty batch, and after the loop any
non-empty remaining batch is flushed (lines 249-256).  Each flushed batch
corresponds to one written file (or one queue send). -/
def generate_traffic_data_flushes (batch_size : Nat) (recs : List α) :
    List (List α) :=
  let fin := runOffers batch_size recs ([], [])
  if fin.1.isEmpty then fin.2 else fin.2 ++ [fin.1]

theorem runOffers_small (s : Nat) :
    ∀ (recs : List α) (b : List α) (fs : List (List α)),
      b.length + recs.length < s →
      runOffers s recs (b, fs) = (b ++ recs, fs) := by
  intro recs
  induction recs with
  | nil => intro b fs _; simp [runOffers]
  | cons r rest ih =>
    intro b fs h
    simp only [runOffers, offerStep]
    have hne : ¬ ((b ++ [r]).length = s) := by
      simp only [List.length_append, List.length_cons, List.length_nil]
      simp only [List.length_cons] at h
      omega
    rw [if_neg hne]
    rw [ih (b ++ [r]) fs (by simp only [List.length_append, List.length_cons,
      List.length_nil] at h ⊢; omega)]
    simp

theorem runOffers_fill (s : Nat) :
    ∀ (recs : List α) (b : List α) (fs : List (List α)),
      b.length < s → s ≤ b.length + recs.length →
      runOffers s recs (b, fs) =
        runOffers s (recs.drop (s - b.length))
          ([], fs ++ [b ++ recs.take (s - b.length)]) := by
  intro recs
  induction recs with
  | nil =>
    intro b fs h1 h2
    simp only [List.length_nil, Nat.add_zero] at h2
    omega
  | cons r rest ih =>
    intro b fs h1 h2
    simp only [runOffers, offerStep]
    by_cases hfull : (b ++ [r]).length = s
    · have h3 : s - b.length = 1 := by
        simp only [List.length_append, List.length_cons, List.length_nil] at hfull
        omega
      rw [if_pos hfull, h3]
      simp only [List.take_succ_cons, List.take_zero, List.drop_succ_cons,
        List.drop_zero]
    · rw [if_neg hfull]
      have h5 : (b ++ [r]).length < s := by
        simp only [List.length_append, List.length_cons, List.length_nil] at hfull ⊢
        omega
      have h6 : s ≤ (b ++ [r]).length + rest.length := by
        simp only [List.length_append, List.length_cons, List.length_nil] at h2 ⊢
        omega
      rw [ih (b ++ [r]) fs h5 h6]
      have h7 : s - b.length = (s - (b ++ [r]).length) + 1 := by
        simp only [List.length_append, List.length_cons, List.length_nil] at hfull ⊢
        omega
      rw [h7]
      simp only [List.take_succ_cons, List.drop_succ_cons, List.length_append,
        List.length_cons, List.length_nil, List.append_assoc, List.cons_append,
        List.nil_append]

theorem runOffers_acc (s : Nat) :
    ∀ (recs : List α) (b : List α) (fs : List (List α)),
      runOffers s recs (b, fs) =
        ((runOffers s recs (b, [])).1, fs ++ (runOffers s recs (b, [])).2) := by
  intro recs
  induction recs with
  | nil => intro b fs; simp [runOffers]
  | cons r rest ih =>
    intro b fs
    simp only [runOffers, offerStep]
    by_cases hfull : (b ++ [r]).length = s
    · rw [if_pos hfull, if_pos hfull]
      rw [ih [] (fs ++ [b ++ [r]]), ih [] ([] ++ [b ++ [r]])]
      simp
    · rw [if_neg hfull, if_neg hfull]
      exact ih (b ++ [r]) fs

theorem flushes_nil (s : Nat) :
    generate_traffic_data_flushes s ([] : List α) = [] := by
  simp [generate_traffic_data_flushes, runOffers]

theorem flushes_small (s : Nat) (recs : List α) (h0 : recs ≠ [])
    (hlt : recs.length < s) :
    generate_traffic_data_flushes s recs = [recs] := by
  unfold generate_traffic_data_flushes
  rw [runOffers_small s recs [] [] (by simpa using hlt)]
  cases recs with
  | nil => exact absurd rfl h0
  | cons a l => simp

theorem flushes_step (s : Nat) (hs : 0 < s) (recs : List α)
    (hlen : s ≤ recs.length) :
    generate_traffic_data_flushes s recs =
      recs.take s :: generate_traffic_data_flushes s (recs.drop s) := by
  unfold generate_traffic_data_flushes
  rw [runOffers_fill s recs [] [] (by simpa using hs) (by simpa using hlen)]
  simp only [List.length_nil, Nat.sub_zero, List.nil_append]
  rw [runOffers_acc s (recs.drop s) [] [recs.take s]]
  cases he : (runOffers s (recs.drop s) ([], ([] : List (List α)))).1.isEmpty <;>
    simp [he]

theorem flushes_sizes_aux (s : Nat) (hs : 0 < s) :
    ∀ (n : Nat) (recs : List α), recs.length ≤ n →
      (generate_traffic_data_flushes s recs).map List.length =
          List.replicate (recs.length / s) s ++
            (if recs.length % s = 0 then [] else [recs.length % s]) ∧
        (generate_traffic_data_flushes s recs).flatten = recs ∧
        (generate_traffic_data_flushes s recs).length = (recs.length + s - 1) / s := by
  intro n
  induction n with
  | zero =>
    intro recs h
    have hr : recs = [] := List.eq_nil_of_length_eq_zero (Nat.le_zero.mp h)
    subst hr
    refine ⟨?_, ?_, ?_⟩
    · simp [flushes_nil, Nat.zero_div, Nat.zero_mod]
    · simp [flushes_nil]
    · rw [flushes_nil]
      simp only [List.length_nil, Nat.zero_add]
      exact (Nat.div_eq_of_lt (by omega)).symm
  | succ n ih =>
    intro recs h
    rcases eq_or_ne recs [] with rfl | hne
    · refine ⟨?_, ?_, ?_⟩
      · simp [flushes_nil, Nat.zero_div, Nat.zero_mod]
      · simp [flushes_nil]
      · rw [flushes_nil]
        simp only [List.length_nil, Nat.zero_add]
        exact (Nat.div_eq_of_lt (by omega)).symm
    · by_cases hlt : recs.length < s
      · have hpos : 0 < recs.length := List.length_pos.mpr hne
        rw [flushes_small s recs hne hlt]
        refine ⟨?_, ?_, ?_⟩
        · rw [Nat.div_eq_of_lt hlt, Nat.mod_eq_of_lt hlt]
          simp only [List.map_cons, List.map_nil, List.replicate_zero,
            List.nil_append]
          rw [if_neg (by omega)]
        · simp
        · have h5 : recs.length + s - 1 = (recs.length - 1) + s := by omega
          simp only [List.length_cons, List.length_nil]
          rw [h5, Nat.add_div_right _ hs, Nat.div_eq_of_lt (by omega)]
      · push_neg at hlt
        rw [flushes_step s hs recs hlt]
        have hdrop : (recs.drop s).length ≤ n := by
          simp only [List.length_drop]
          omega
        obtain ⟨ih1, ih2, ih3⟩ := ih (recs.drop s) hdrop
        have hrlen : recs.length = (recs.drop s).length + s := by
          simp only [List.length_drop]
          omega
        have htake : (recs.take s).length = s := by
          simp only [List.length_take]
          omega
        refine ⟨?_, ?_, ?_⟩
        · simp only [List.map_cons, htake]
          rw [ih1, hrlen, Nat.add_div_right _ hs, Nat.add_mod_right,
            List.replicate_succ]
          simp
        · simp only [List.flatten_cons, ih2, List.take_append_drop]
        · simp only [List.length_cons, ih3]
          rw [hrlen]
          have h8 : (recs.drop s).length + s + s - 1 =
              ((recs.drop s).length + s - 1) + s := by omega
          rw [h8, Nat.add_div_right _ hs]

/-- C4: with a positive batch size, the flushed batch sizes are exactly
batch_size repeated floor(total / batch_size) times followed by one final
flush of size total mod batch_size when that remainder is non-zero; the
concatenation of the flushes is exactly the offered record sequence, and the
number of flushes is the ceiling of total / batch_size (zero when no records
are offered). -/
theorem generate_traffic_data_batching (s : Nat) (recs : List α) (hs : 0 < s) :
    (generate_traffic_data_flushes s recs).map List.length =
        List.replicate (recs.length / s) s ++
          (if recs.length % s = 0 then [] else [recs.length % s]) ∧
      (generate_traffic_data_flushes s recs).flatten = recs ∧
      (generate_traffic_data_flushes s recs).length = (recs.length + s - 1) / s :=
  flushes_sizes_aux s hs recs.length recs le_rfl

theorem generate_traffic_data_batching_witness :
    0 < 3 ∧
      ((generate_traffic_data_flushes 3 (List.range 10)).map List.length =
          List.replicate ((List.range 10).length / 3) 3 ++
            (if (List.range 10).length % 3 = 0 then []
              else [(List.range 10).length % 3]) ∧
        (generate_traffic_data_flushes 3 (List.range 10)).flatten = List.range 10 ∧
        (generate_traffic_data_flushes 3 (List.range 10)).length =
          ((List.range 10).length + 3 - 1) / 3) :=
  ⟨by decide, generate_traffic_data_batching 3 (List.range 10) (by decide)⟩

/-- Total record count of generate_traffic_data (lines 187-188):
total_days = (end_date - start_date).days and
total_records = average_daily_volume * total_days. -/
def total_records (average_daily_volume total_days : Nat) : Nat :=
  average_daily_volume * total_days

/-- The full driving loop of generate_traffic_data: assemble total_records
records with the record assembler mk and dispatch them through the batching
logic; the result is the list of flushed batches, one per output file. -/
def generate_traffic_data_batches (average_daily_volume total_days batch_size : Nat)
    (mk : Nat → α) : List (List α) :=
  generate_traffic_data_flushes batch_size
    ((List.range (total_records average_daily_volume total_days)).map mk)

/-- C5: across all flushed batches the driving loop emits exactly
average_daily_volume times total_days records, in order; and with zero days
between start and end no batch is ever flushed, so no output file is written. -/
theorem generate_traffic_data_total (average_daily_volume total_days batch_size : Nat)
    (mk : Nat → α) (hs : 0 < batch_size) :
    (generate_traffic_data_batches average_daily_volume total_days batch_size mk).flatten =
        (List.range (average_daily_volume * total_days)).map mk ∧
      (generate_traffic_data_batches average_daily_volume total_days batch_size
          mk).flatten.length = average_daily_volume * total_days ∧
      generate_traffic_data_batches average_daily_volume 0 batch_size mk = [] := by
  have hjoin := (flushes_sizes_aux batch_size hs
    ((List.range (total_records average_daily_volume total_days)).map mk).length
    ((List.range (total_records average_daily_volume total_days)).map mk) le_rfl).2.1
  refine ⟨hjoin, ?_, ?_⟩
  · show (generate_traffic_data_flushes batch_size
        ((List.range (total_records average_daily_volume total_days)).map
          mk)).flatten.length = average_daily_volume * total_days
    rw [hjoin]
    simp [total_records]
  · show generate_traffic_data_flushes batch_size _ = []
    simp only [total_records, Nat.mul_zero, List.range_zero, List.map_nil]
    exact flushes_nil batch_size

theorem generate_traffic_data_total_witness :
    0 < 10 ∧
      ((generate_traffic_data_batches 10 0 10 (fun i => i)).flatten =
          (List.range (10 * 0)).map (fun i => i) ∧
        (generate_traffic_data_batches 10 0 10 (fun i => i)).flatten.length = 10 * 0 ∧
        generate_traffic_data_batches 10 0 10 (fun i => i) = []) :=
  ⟨by decide, generate_traffic_data_total 10 0 10 (fun i => i) (by decide)⟩

/-- A raster image as apply_effects sees it: either a single-channel grayscale
pixel matrix or a three-channel color matrix. -/
inductive CVImage
  | gray (px : List (List Nat))
  | color (px : List (List (Nat × Nat × Nat)))
deriving DecidableEq

/-- The pixel-level library operations apply_effects delegates to (cv2, numpy
and PIL); they are external collaborators and are therefore opaque
parameters of the model. -/
structure EffectOps where
  gaussianBlur : List (List Nat) → List (List Nat)
  addNoise : List (List Nat) → List (List Nat)
  rainStreaks : List (List Nat) → List (List Nat)
  snowBlend : List (List Nat) → List (List Nat)
  rgbToGray : List (List (Nat × Nat × Nat)) → List (List Nat)

/-- The error vocabulary the specification assigns to the effect engine. -/
inductive EffectError
  | invalidEffect
deriving DecidableEq

/-- Normalization to single-channel grayscale (lines 63-67): a color image is
converted, a grayscale image passes through. -/
def toGrayscale (ops : EffectOps) : CVImage → List (List Nat)
  | .gray px => px
  | .color px => ops.rgbToGray px

/-- apply_effects (lines 61-93): normalizes the input to grayscale, then runs
an if/elif chain over the four names blurry, dirty, rainy and snowy; any other
effect name falls through with the image unchanged, and the function contains
no raise statement, so it always returns the resulting image. -/
def apply_effects (ops : EffectOps) (image : CVImage) (effect : String) :
    Except EffectError CVImage :=
  let img_cv := toGrayscale ops image
  let img_cv :=
    if effect = "blurry" then ops.gaussianBlur img_cv
    else if effect = "dirty" then ops.addNoise img_cv
    else if effect = "rainy" then ops.rainStreaks img_cv
    else if effect = "snowy" then ops.snowBlend img_cv
    else img_cv
  Except.ok (CVImage.gray img_cv)

/-- The effect names the engine's if/elif chain recognizes. -/
def handled_effect_names : List String := ["blurry", "dirty", "rainy", "snowy"]

/-- The effect vocabulary the composer samples from (line 141). -/
def effect_choice_names : List String := ["clear", "dirty", "blurry", "snow", "rain"]

/-- Trivial instantiation of the opaque pixel operations, used for concrete
evaluations. -/
def idOps : EffectOps :=
  { gaussianBlur := id, addNoise := id, rainStreaks := id, snowBlend := id,
    rgbToGray := fun _ => [] }

/-- C6 counterexample: the name bogus is not a recognized effect, yet
apply_effects returns the grayscale image normally instead of failing with
InvalidEffect. -/
theorem apply_effects_unknown_counterexample :
    handled_effect_names.contains "bogus" = false ∧
      apply_effects idOps (CVImage.gray [[0]]) "bogus" =
        Except.ok (CVImage.gray [[0]]) :=
  ⟨by decide, rfl⟩

/-- C6 amended: apply_effects never fails: for every input image and every
effect name, recognized or not, it returns a grayscale image normally, so no
InvalidEffect failure is ever raised. -/
theorem apply_effects_never_fails (ops : EffectOps) (image : CVImage)
    (effect : String) :
    ∃ px, apply_effects ops image effect = Except.ok (CVImage.gray px) :=
  ⟨_, rfl⟩

/-- C9: every effect name outside the four recognized ones, in particular the
sampled names clear, snow and rain, produces exactly the grayscale-normalized
input with no further modification; clear, snow and rain belong to the
composer's sampling vocabulary but not to the engine's recognized set. -/
theorem apply_effects_unhandled_is_grayscale (ops : EffectOps) (image : CVImage)
    (effect : String) (h : ¬ effect ∈ handled_effect_names) :
    apply_effects ops image effect = Except.ok (CVImage.gray (toGrayscale ops image)) ∧
      "clear" ∈ effect_choice_names ∧ "snow" ∈ effect_choice_names ∧
      "rain" ∈ effect_choice_names ∧
      handled_effect_names.contains "clear" = false ∧
      handled_effect_names.contains "snow" = false ∧
      handled_effect_names.contains "rain" = false := by
  simp only [handled_effect_names, List.mem_cons, List.not_mem_nil, or_false] at h
  push_neg at h
  obtain ⟨h1, h2, h3, h4⟩ := h
  refine ⟨?_, by decide, by decide, by decide, by decide, by decide, by decide⟩
  simp only [apply_effects, if_neg h1, if_neg h2, if_neg h3, if_neg h4]

theorem apply_effects_unhandled_is_grayscale_witness :
    ¬ "snow" ∈ handled_effect_names ∧
      (apply_effects idOps (CVImage.gray [[7]]) "snow" =
          Except.ok (CVImage.gray (toGrayscale idOps (CVImage.gray [[7]]))) ∧
        "clear" ∈ effect_choice_names ∧ "snow" ∈ effect_choice_names ∧
        "rain" ∈ effect_choice_names ∧
        handled_effect_names.contains "clear" = false ∧
        handled_effect_names.contains "snow" = false ∧
        handled_effect_names.contains "rain" = false) :=
  ⟨by decide,
    apply_effects_unhandled_is_grayscale idOps (CVImage.gray [[7]]) "snow" (by decide)⟩

/-- One jurisdiction profile of the PLATE_STATES table (lines 24-31): full
name, two-letter code, sampling weight, plate format, and the optional
plate-type list (present only for Illinois). -/
structure PlateStateProfile where
  full_name : String
  abbreviation : String
  probability : Rat
  format : String
  plate_types : Option (List String)
deriving DecidableEq

/-- The configured PLATE_STATES table (lines 24-31). -/
def PLATE_STATES : List PlateStateProfile :=
  [⟨"Illinois", "IL", 0.1, "A######",
      some ["Passenger", "Commercial", "Firefighter", "Doctor"]⟩,
    ⟨"Pennsylvania", "PA", 0.6, "AAA####", none⟩,
    ⟨"New Jersey", "NJ", 0.1, "A##AAA", none⟩,
    ⟨"New York", "NY", 0.05, "AAA####", none⟩,
    ⟨"Maryland", "MD", 0.05, "AAA###", none⟩,
    ⟨"Ohio", "OH", 0.1, "AAA####", none⟩]

/-- The plate-type sampling of generate_traffic_data (lines 197-200):
plate_types starts as None; when the abbreviation is IL, random.choice is run
over the profile's plate_types entry (defaulting to the empty list, on which
random.choice would raise IndexError, modeled as the error case). -/
def samplePlateType (p : PlateStateProfile) (rng : Nat) :
    Except String (Option String) :=
  if p.abbreviation = "IL" then
    match p.plate_types.getD [] with
    | [] => Except.error "IndexError"
    | x :: xs => Except.ok (some (randomChoice (x :: xs) rng (List.cons_ne_nil x xs)))
  else Except.ok none

/-- C7: for every configured jurisdiction profile, if the profile defines a
plate-type list the sampler returns one entry of that list, and if it defines
none the sampler returns the absent value without error.  In the configured
table these two cases are exactly the Illinois test the code performs. -/
theorem samplePlateType_spec (p : PlateStateProfile) (hp : p ∈ PLATE_STATES)
    (rng : Nat) :
    (∀ l, p.plate_types = some l →
        ∃ x, samplePlateType p rng = Except.ok (some x) ∧ x ∈ l) ∧
      (p.plate_types = none → samplePlateType p rng = Except.ok none) := by
  fin_cases hp
  · refine ⟨fun l hl => ?_, fun hl => Option.noConfusion hl⟩
    obtain rfl : ["Passenger", "Commercial", "Firefighter", "Doctor"] = l := by
      cases hl
      rfl
    refine ⟨randomChoice ["Passenger", "Commercial", "Firefighter", "Doctor"] rng
      (List.cons_ne_nil _ _), rfl, ?_⟩
    exact List.get_mem _ _ _
  all_goals
    refine ⟨fun l hl => ?_, fun _ => rfl⟩
    exact Option.noConfusion hl

theorem samplePlateType_spec_witness :
    (⟨"Illinois", "IL", 0.1, "A######",
        some ["Passenger", "Commercial", "Firefighter", "Doctor"]⟩ :
      PlateStateProfile) ∈ PLATE_STATES ∧
      ((∀ l, (⟨"Illinois", "IL", 0.1, "A######",
            some ["Passenger", "Commercial", "Firefighter", "Doctor"]⟩ :
          PlateStateProfile).plate_types = some l →
          ∃ x, samplePlateType ⟨"Illinois", "IL", 0.1, "A######",
            some ["Passenger", "Commercial", "Firefighter", "Doctor"]⟩ 0 =
              Except.ok (some x) ∧ x ∈ l) ∧
        ((⟨"Illinois", "IL", 0.1, "A######",
            some ["Passenger", "Commercial", "Firefighter", "Doctor"]⟩ :
          PlateStateProfile).plate_types = none →
          samplePlateType ⟨"Illinois", "IL", 0.1, "A######",
            some ["Passenger", "Commercial", "Firefighter", "Doctor"]⟩ 0 =
            Except.ok none)) :=
  ⟨List.mem_cons_self _ _,
    samplePlateType_spec _ (List.mem_cons_self _ _) 0⟩

/-- The fixed message body used by send_batch_message (servicebus_send.py
line 22). -/
def BATCH_MESSAGE_TEXT : String := "Message inside a ServiceBusMessageBatch"

/-- A publish unit of the queue sink: a message batch with a fixed capacity
(max_size, modeled as a message count) and the messages added so far. -/
structure ServiceBusMessageBatch where
  max_count : Nat
  messages : List String
deriving DecidableEq

/-- The batch-construction primitive: add_message appends when the unit has
room and reports a capacity error (ValueError) when the unit is full. -/
def add_message (b : ServiceBusMessageBatch) (m : String) :
    Except Unit ServiceBusMessageBatch :=
  if b.messages.length < b.max_count then
    Except.ok { b with messages := b.messages ++ [m] }
  else Except.error ()

/-- The filling loop of send_batch_message (servicebus_send.py lines 20-26):
n remaining iterations of try add_message; the except ValueError branch breaks
out of the loop, turning the capacity error into a normal return of the batch
filled so far. -/
def fillLoop : Nat → ServiceBusMessageBatch →
    Except Unit ServiceBusMessageBatch
  | 0, b => Except.ok b
  | n + 1, b =>
    match add_message b BATCH_MESSAGE_TEXT with
    | Except.ok b2 => fillLoop n b2
    | Except.error _ => Except.ok b

/-- send_batch_message (servicebus_send.py lines 18-27): creates an empty
publish unit of capacity cap, runs the 10-iteration filling loop, and the
resulting unit is then passed to sender.send_messages. -/
def send_batch_message (cap : Nat) : Except Unit ServiceBusMessageBatch :=
  fillLoop 10 ⟨cap, []⟩

theorem fillLoop_spec (cap : Nat) :
    ∀ (n : Nat) (l : List String), l.length ≤ cap →
      fillLoop n ⟨cap, l⟩ =
        Except.ok ⟨cap, l ++ List.replicate (min n (cap - l.length)) BATCH_MESSAGE_TEXT⟩ := by
  intro n
  induction n with
  | zero => intro l _; simp [fillLoop]
  | succ k ih =>
    intro l hl
    simp only [fillLoop, add_message]
    by_cases hroom : l.length < cap
    · rw [if_pos hroom]
      show fillLoop k ⟨cap, l ++ [BATCH_MESSAGE_TEXT]⟩ = _
      rw [ih (l ++ [BATCH_MESSAGE_TEXT]) (by simp; omega)]
      have harith : min k (cap - (l ++ [BATCH_MESSAGE_TEXT]).length) + 1 =
          min (k + 1) (cap - l.length) := by
        simp only [List.length_append, List.length_cons, List.length_nil]
        omega
      rw [← harith, List.replicate_succ]
      simp
    · rw [if_neg hroom]
      have hz : cap - l.length = 0 := by omega
      rw [hz]
      simp

/-- C8: for every capacity of the publish unit, the filling loop absorbs the
capacity error locally: send_batch_message returns the unit normally (never an
error), having stopped adding messages at the capacity, so the unit holding
min 10 cap messages is still sent. -/
theorem send_batch_message_spec (cap : Nat) :
    send_batch_message cap =
      Except.ok ⟨cap, List.replicate (min 10 cap) BATCH_MESSAGE_TEXT⟩ := by
  show fillLoop 10 ⟨cap, []⟩ = _
  rw [fillLoop_spec cap 10 [] (by simp)]
  simp
